import Mathlib

/-!
Verification of the go-pythainlp client/orchestration layer.

This file is a shallow embedding of the Go sources (docker.go, transliterate.go,
the client, the analyze and syllable-tokenize facades).  Pure Go functions become
Lean functions; the HTTP client is an oracle argument (a function from the typed
request to an Except-wrapped typed response); the single piece of mutable state
(the readiness flag) is explicit state passing.  Each facade additionally returns
the list of requests it handed to the client oracle, so that "no HTTP request is
issued" is expressible as that list being empty.  Go float64 metadata values are
modelled as rationals: the code only copies them, never computes with them.
-/

namespace Pythainlp

/-- GoVal models a Go interface value as stored in a map of type
map from string to interface.  Only the variants the code inspects matter. -/
inductive GoVal where
  | num (v : Rat)
  | str (s : String)
  | boolean (b : Bool)
  | null
deriving DecidableEq

/-- MetaMap models a Go map from string to interface value, as an association
list; lookup returns the first binding (Go maps have unique keys). -/
abbrev MetaMap := List (String × GoVal)

/-- lookupMeta models Go map indexing with the comma-ok form. -/
def lookupMeta : MetaMap → String → Option GoVal
  | [], _ => none
  | (k, v) :: rest, key => if k = key then some v else lookupMeta rest key

/-- ServiceError mirrors the typed error struct of the transport client
(fields Code, Message, Details). -/
structure ServiceError where
  Code : String
  Message : String
  Details : MetaMap := []
deriving DecidableEq

/-- GoError models a Go error value: a plain message built with Errorf,
a wrapping message around an inner error (the Errorf percent-w form),
or the typed ServiceError. -/
inductive GoError where
  | simple (msg : String)
  | wrapped (msg : String) (inner : GoError)
  | service (e : ServiceError)
deriving DecidableEq

/-- errServiceNotReady is the error every facade returns when the readiness
flag is false. -/
def errServiceNotReady : GoError := .simple ("service not ready")

/-- isThaiText mirrors the helper in transliterate.go: true iff some rune of
the text lies in the Thai Unicode block U+0E00 to U+0E7F (inclusive). -/
def isThaiText (text : String) : Bool :=
  text.data.any fun r => decide (0x0E00 ≤ r.toNat ∧ r.toNat ≤ 0x0E7F)

/-- Token mirrors the Token struct; unset fields keep their Go zero values. -/
structure Token where
  Surface : String := ""
  Romanization : String := ""
  IPA : String := ""
  POS : String := ""
  IsLexical : Bool := false
  Metadata : MetaMap := []
deriving DecidableEq

/-- TokenizeResult mirrors the result struct of tokenization. -/
structure TokenizeResult where
  Tokens : List Token := []
  Raw : List String := []
  Engine : String := ""
  ProcessingTime : Rat := 0
deriving DecidableEq

/-- RomanizeResult mirrors the result struct of romanization. -/
structure RomanizeResult where
  Text : String := ""
  Tokens : List String := []
  RomanizedParts : List String := []
  Engine : String := ""
  ProcessingTime : Rat := 0
deriving DecidableEq

/-- TransliterateResult mirrors the result struct of transliteration. -/
structure TransliterateResult where
  Phonetic : String := ""
  Engine : String := ""
  ProcessingTime : Rat := 0
deriving DecidableEq

/-- SyllableTokenizeResult mirrors the result struct of syllable tokenization. -/
structure SyllableTokenizeResult where
  Syllables : List String := []
  Engine : String := ""
  ProcessingTime : Rat := 0
deriving DecidableEq

/-- AnalyzeResult mirrors the combined-analysis result struct. -/
structure AnalyzeResult where
  Tokens : List Token := []
  RawTokens : List String := []
  Romanized : String := ""
  RomanizedParts : List String := []
  Phonetic : String := ""
  Syllables : List String := []
  Features : List String := []
  ProcessingTime : Rat := 0
deriving DecidableEq

/-- TokenizeRequest mirrors the wire request for tokenization. -/
structure TokenizeRequest where
  Text : String := ""
  Engine : String := ""
  Options : MetaMap := []
deriving DecidableEq

/-- RomanizeRequest mirrors the wire request for romanization. -/
structure RomanizeRequest where
  Text : String := ""
  Engine : String := ""
  Tokenize : Bool := false
deriving DecidableEq

/-- TransliterateRequest mirrors the wire request for transliteration. -/
structure TransliterateRequest where
  Text : String := ""
  Engine : String := ""
deriving DecidableEq

/-- SyllableTokenizeRequest mirrors the wire request built by the
syllable-tokenize facade (fields Text, Engine, KeepWhitespace as constructed
there). -/
structure SyllableTokenizeRequest where
  Text : String := ""
  Engine : String := ""
  KeepWhitespace : Bool := false
deriving DecidableEq

/-- AnalyzeRequest mirrors the wire request for combined analysis. -/
structure AnalyzeRequest where
  Text : String := ""
  Features : List String := []
  TokenizeEngine : String := ""
  RomanizeEngine : String := ""
  TransliterateEngine : String := ""
deriving DecidableEq

/-- TokenizeResponse mirrors the typed response for tokenization. -/
structure TokenizeResponse where
  Tokens : List String := []
  Metadata : MetaMap := []
deriving DecidableEq

/-- RomanizeResponse mirrors the typed response for romanization. -/
structure RomanizeResponse where
  Romanized : String := ""
  Tokens : List String := []
  RomanizedTokens : List String := []
  Metadata : MetaMap := []
deriving DecidableEq

/-- TransliterateResponse mirrors the typed response for transliteration. -/
structure TransliterateResponse where
  Phonetic : String := ""
  Metadata : MetaMap := []
deriving DecidableEq

/-- SyllableTokenizeResponse mirrors the typed response consumed by the
syllable-tokenize facade (fields Syllables, Metadata as read there). -/
structure SyllableTokenizeResponse where
  Syllables : List String := []
  Metadata : MetaMap := []
deriving DecidableEq

/-- AnalyzeData mirrors the data payload of the analyze endpoint. -/
structure AnalyzeData where
  Tokens : List String := []
  Romanized : String := ""
  RomanizedTokens : List String := []
  Phonetic : String := ""
deriving DecidableEq

/-- AnalyzeResponse mirrors the typed response for combined analysis. -/
structure AnalyzeResponse where
  Data : AnalyzeData := {}
  Metadata : MetaMap := []
deriving DecidableEq

/-- TokenizeOptions mirrors the options struct for tokenization. -/
structure TokenizeOptions where
  Engine : String := ""
  CustomDict : List String := []
  KeepWhitespace : Bool := false
  JoinBrokenNum : Bool := false
  Extra : MetaMap := []
deriving DecidableEq

/-- RomanizeOptions mirrors the options struct for romanization. -/
structure RomanizeOptions where
  Engine : String := ""
  TokenizeFirst : Bool := false
  FallbackEngine : String := ""
deriving DecidableEq

/-- TransliterateOptions mirrors the options struct for transliteration. -/
structure TransliterateOptions where
  Engine : String := ""
deriving DecidableEq

/-- SyllableTokenizeOptions mirrors the options struct for syllable
tokenization. -/
structure SyllableTokenizeOptions where
  Engine : String := ""
  KeepWhitespace : Bool := false
deriving DecidableEq

/-- AnalyzeOptions mirrors the options struct for combined analysis. -/
structure AnalyzeOptions where
  Features : List String := []
  TokenizeEngine : String := ""
  RomanizeEngine : String := ""
  TransliterateEngine : String := ""
  SyllableEngine : String := ""
deriving DecidableEq

/-- EngineNewMM is the documented default tokenization engine. -/
def EngineNewMM : String := "newmm"

/-- EngineRoyin is the documented default romanization engine. -/
def EngineRoyin : String := "royin"

/-- EngineThaig2p is the documented default transliteration engine. -/
def EngineThaig2p : String := "thaig2p"

/-- EngineSyllableHanSolo is the documented default syllable-tokenization
engine. -/
def EngineSyllableHanSolo : String := "han_solo"

/-- extractProcessingTime mirrors the metadata extraction done by every
facade: the comma-ok type assertion to float64 on the processing-time key,
defaulting to zero when the key is absent or not numeric. -/
def extractProcessingTime (md : MetaMap) : Rat :=
  match lookupMeta md ("processing_time_ms") with
  | some (.num v) => v
  | _ => 0

/-- mkTokenizeRequest mirrors the request construction in TokenizeWithOptions:
fields copied from text and options, then the empty engine replaced by the
default. -/
def mkTokenizeRequest (text : String) (opts : TokenizeOptions) : TokenizeRequest :=
  { Text := text
    Engine := if opts.Engine = "" then EngineNewMM else opts.Engine
    Options := opts.Extra }

/-- mkRomanizeRequest mirrors the request construction in RomanizeWithOptions. -/
def mkRomanizeRequest (text : String) (opts : RomanizeOptions) : RomanizeRequest :=
  { Text := text
    Engine := if opts.Engine = "" then EngineRoyin else opts.Engine
    Tokenize := opts.TokenizeFirst }

/-- mkTransliterateRequest mirrors the request construction in
TransliterateWithOptions. -/
def mkTransliterateRequest (text : String) (opts : TransliterateOptions) : TransliterateRequest :=
  { Text := text
    Engine := if opts.Engine = "" then EngineThaig2p else opts.Engine }

/-- mkSyllableTokenizeRequest mirrors the request construction in
SyllableTokenizeWithOptions. -/
def mkSyllableTokenizeRequest (text : String) (opts : SyllableTokenizeOptions) :
    SyllableTokenizeRequest :=
  { Text := text
    Engine := if opts.Engine = "" then EngineSyllableHanSolo else opts.Engine
    KeepWhitespace := opts.KeepWhitespace }

/-- mkAnalyzeRequest mirrors the request construction in AnalyzeWithOptions:
when no features are given the default pair of tokenize and romanize is
requested. -/
def mkAnalyzeRequest (text : String) (opts : AnalyzeOptions) : AnalyzeRequest :=
  { Text := text
    Features := if opts.Features.length = 0 then ["tokenize", "romanize"] else opts.Features
    TokenizeEngine := opts.TokenizeEngine
    RomanizeEngine := opts.RomanizeEngine
    TransliterateEngine := opts.TransliterateEngine }

/-- TokenizeWithOptions embeds the tokenize facade.  The readiness flag is the
value the Go method reads through IsReady; the client oracle stands for the
HTTP client.  The second component of the result is the list of requests handed
to the client (empty means no HTTP request was issued). -/
def TokenizeWithOptions (ready : Bool)
    (client : TokenizeRequest → Except GoError TokenizeResponse)
    (text : String) (opts : TokenizeOptions) :
    Except GoError TokenizeResult × List TokenizeRequest :=
  if ready then
    match client (mkTokenizeRequest text opts) with
    | .error e => (.error (.wrapped ("tokenization failed") e), [mkTokenizeRequest text opts])
    | .ok resp =>
        (.ok { Raw := resp.Tokens
               Engine := (mkTokenizeRequest text opts).Engine
               ProcessingTime := extractProcessingTime resp.Metadata
               Tokens := resp.Tokens.map fun token =>
                 { Surface := token, IsLexical := isThaiText token } },
         [mkTokenizeRequest text opts])
  else (.error errServiceNotReady, [])

/-- RomanizeWithOptions embeds the romanize facade. -/
def RomanizeWithOptions (ready : Bool)
    (client : RomanizeRequest → Except GoError RomanizeResponse)
    (text : String) (opts : RomanizeOptions) :
    Except GoError RomanizeResult × List RomanizeRequest :=
  if ready then
    match client (mkRomanizeRequest text opts) with
    | .error e => (.error (.wrapped ("romanization failed") e), [mkRomanizeRequest text opts])
    | .ok resp =>
        (.ok { Text := resp.Romanized
               Tokens := resp.Tokens
               RomanizedParts := resp.RomanizedTokens
               Engine := (mkRomanizeRequest text opts).Engine
               ProcessingTime := extractProcessingTime resp.Metadata },
         [mkRomanizeRequest text opts])
  else (.error errServiceNotReady, [])

/-- TransliterateWithOptions embeds the transliterate facade. -/
def TransliterateWithOptions (ready : Bool)
    (client : TransliterateRequest → Except GoError TransliterateResponse)
    (text : String) (opts : TransliterateOptions) :
    Except GoError TransliterateResult × List TransliterateRequest :=
  if ready then
    match client (mkTransliterateRequest text opts) with
    | .error e => (.error (.wrapped ("transliteration failed") e), [mkTransliterateRequest text opts])
    | .ok resp =>
        (.ok { Phonetic := resp.Phonetic
               Engine := (mkTransliterateRequest text opts).Engine
               ProcessingTime := extractProcessingTime resp.Metadata },
         [mkTransliterateRequest text opts])
  else (.error errServiceNotReady, [])

/-- SyllableTokenizeWithOptions embeds the syllable-tokenize facade. -/
def SyllableTokenizeWithOptions (ready : Bool)
    (client : SyllableTokenizeRequest → Except GoError SyllableTokenizeResponse)
    (text : String) (opts : SyllableTokenizeOptions) :
    Except GoError SyllableTokenizeResult × List SyllableTokenizeRequest :=
  if ready then
    match client (mkSyllableTokenizeRequest text opts) with
    | .error e =>
        (.error (.wrapped ("syllable tokenization failed") e), [mkSyllableTokenizeRequest text opts])
    | .ok resp =>
        (.ok { Syllables := resp.Syllables
               Engine := (mkSyllableTokenizeRequest text opts).Engine
               ProcessingTime := extractProcessingTime resp.Metadata },
         [mkSyllableTokenizeRequest text opts])
  else (.error errServiceNotReady, [])

/-- mkAnalyzeTokens embeds the token-building loop of AnalyzeWithOptions: each
raw token becomes a Token with its surface and lexical flag, taking the
romanization at the same index when one exists and the empty string otherwise.
The Go loop is indexed; this recursion consumes both lists in lockstep, which
computes the same list.  (The Go guard on a non-empty token list is redundant:
for an empty list both produce the empty token list.) -/
def mkAnalyzeTokens : List String → List String → List Token
  | [], _ => []
  | token :: ts, [] =>
      { Surface := token, IsLexical := isThaiText token } :: mkAnalyzeTokens ts []
  | token :: ts, rom :: roms =>
      { Surface := token, IsLexical := isThaiText token, Romanization := rom } ::
        mkAnalyzeTokens ts roms

/-- AnalyzeWithOptions embeds the combined-analyze facade. -/
def AnalyzeWithOptions (ready : Bool)
    (client : AnalyzeRequest → Except GoError AnalyzeResponse)
    (text : String) (opts : AnalyzeOptions) :
    Except GoError AnalyzeResult × List AnalyzeRequest :=
  if ready then
    match client (mkAnalyzeRequest text opts) with
    | .error e => (.error (.wrapped ("analysis failed") e), [mkAnalyzeRequest text opts])
    | .ok resp =>
        (.ok { RawTokens := resp.Data.Tokens
               Romanized := resp.Data.Romanized
               RomanizedParts := resp.Data.RomanizedTokens
               Phonetic := resp.Data.Phonetic
               Features := (mkAnalyzeRequest text opts).Features
               ProcessingTime := extractProcessingTime resp.Metadata
               Tokens := mkAnalyzeTokens resp.Data.Tokens resp.Data.RomanizedTokens },
         [mkAnalyzeRequest text opts])
  else (.error errServiceNotReady, [])

/-- ServiceResponse mirrors the common envelope of the transport client. -/
structure ServiceResponse where
  Data : String := ""
  Metadata : MetaMap := []
  Error : Option ServiceError := none
deriving DecidableEq

/-- doRequest embeds the envelope handling of the transport client.  The HTTP
round trip is an oracle producing either a transport error or a raw body, and
parse is the JSON decoding oracle for the envelope; the function then returns
the envelope error verbatim as a typed service error when present, and the
envelope otherwise, mirroring the Go control flow and its wrapping messages. -/
def doRequest (httpResult : Except String String)
    (parse : String → Except String ServiceResponse) :
    Except GoError ServiceResponse :=
  match httpResult with
  | .error e => .error (.wrapped ("request failed") (.simple e))
  | .ok body =>
    match parse body with
    | .error e => .error (.wrapped ("failed to unmarshal response") (.simple e))
    | .ok serviceResp =>
      match serviceResp.Error with
      | some e => .error (.service e)
      | none => .ok serviceResp

/-- PyThaiNLPManagerState is the readiness portion of the manager struct: the
only mutable field the claims are about.  The container handle and client are
oracles elsewhere. -/
structure PyThaiNLPManagerState where
  serviceReady : Bool := false
deriving DecidableEq

/-- newManager is the state of a freshly constructed manager: the constructor
never touches serviceReady, so it keeps the Go zero value false. -/
def newManager : PyThaiNLPManagerState := {}

/-- IsReady embeds the thread-safe read of the readiness flag. -/
def IsReady (pm : PyThaiNLPManagerState) : Bool :=
  pm.serviceReady

/-- startServiceSuccess is the state after a successful startService, which
sets the flag true. -/
def startServiceSuccess (pm : PyThaiNLPManagerState) : PyThaiNLPManagerState :=
  { pm with serviceReady := true }

/-- Stop embeds the Stop method: clear the readiness flag first, then delegate
to the container teardown, whose outcome (possibly an error) is passed through
as the oracle argument dockerStop. -/
def Stop (pm : PyThaiNLPManagerState) (dockerStop : Except GoError Unit) :
    PyThaiNLPManagerState × Except GoError Unit :=
  ({ pm with serviceReady := false }, dockerStop)

/-- Close embeds the Close method: clear the readiness flag first, close the
log consumer (pure delegation, no error), then delegate to the container
teardown, whose outcome is the oracle argument dockerClose. -/
def Close (pm : PyThaiNLPManagerState) (dockerClose : Except GoError Unit) :
    PyThaiNLPManagerState × Except GoError Unit :=
  ({ pm with serviceReady := false }, dockerClose)

/-- WaitOutcome distinguishes the three exits of the readiness poll loop. -/
inductive WaitOutcome where
  | success
  | timedOut
  | ctxCanceled
deriving DecidableEq

/-- serviceCheckIntervalMs is the poll interval in milliseconds. -/
def serviceCheckIntervalMs : Nat := 500

/-- maxServiceWaitTimeMs is the maximum wait in milliseconds. -/
def maxServiceWaitTimeMs : Nat := 60000

/-- maxPolls is the number of interval ticks that fit in the maximum wait:
time is discretized into poll ticks, each loop iteration costing one tick. -/
def maxPolls : Nat := maxServiceWaitTimeMs / serviceCheckIntervalMs

/-- waitGo is the poll loop of waitForService over discretized time: fuel is
the number of ticks left before the deadline, polls the number of health polls
already made.  Each iteration first observes cancellation (the ctx.Done arm of
the select), then polls health; the second component of the result is the
number of polls performed. -/
def waitGo (health cancelled : Nat → Bool) : Nat → Nat → WaitOutcome × Nat
  | 0, polls => (.timedOut, polls)
  | fuel + 1, polls =>
    if cancelled polls then (.ctxCanceled, polls)
    else if health polls then (.success, polls + 1)
    else waitGo health cancelled fuel (polls + 1)

/-- waitForService embeds the readiness poll: health gives the outcome of the
i-th health poll (true means the endpoint reported status ready), cancelled
whether the caller's context is done when the i-th iteration runs. -/
def waitForService (health cancelled : Nat → Bool) : WaitOutcome × Nat :=
  waitGo health cancelled maxPolls 0

/-- hasPrefixL decides whether the second list is a prefix of the first. -/
def hasPrefixL : List Char → List Char → Bool
  | _, [] => true
  | [], _ :: _ => false
  | c :: s, p :: ps => c == p && hasPrefixL s ps

/-- containsSub decides Go strings.Contains on rune lists: some position of the
first list starts with the second list. -/
def containsSub : List Char → List Char → Bool
  | [], pat => pat.isEmpty
  | c :: rest, pat => hasPrefixL (c :: rest) pat || containsSub rest pat

/-- replaceAllGo is Go strings.ReplaceAll on rune lists (left-to-right,
non-overlapping) with explicit structural fuel so that it evaluates in the
kernel; fuel at least the length of the subject is always sufficient since
every step consumes at least one rune.  Go's behavior on an empty pattern
(inserting between runes) is not modelled: the only pattern used is the
non-empty port placeholder. -/
def replaceAllGo (pat rep : List Char) : Nat → List Char → List Char
  | _, [] => []
  | 0, s => s
  | fuel + 1, c :: rest =>
    if !pat.isEmpty && hasPrefixL (c :: rest) pat then
      rep ++ replaceAllGo pat rep fuel ((c :: rest).drop pat.length)
    else
      c :: replaceAllGo pat rep fuel rest

/-- replaceAll is Go strings.ReplaceAll with sufficient fuel. -/
def replaceAll (s pat rep : List Char) : List Char :=
  replaceAllGo pat rep s.length s

/-- portPlaceholder is the literal placeholder token substituted into the
embedded server script. -/
def portPlaceholder : String := "__PYTHAINLP_SERVICE_PORT__"

/-- copyServiceFiles embeds the placeholder-substitution step of the Go
function of the same name: replace every occurrence of the placeholder by the
port string, then fail iff the placeholder is still present in the modified
content.  The container I/O that follows (mkdir, write, chmod) is delegated
Docker exec and out of scope of the embedding; on ok the modified script
content is returned. -/
def copyServiceFiles (content portStr : String) : Except GoError String :=
  let modifiedContent := replaceAll content.data portPlaceholder.data portStr.data
  if containsSub modifiedContent portPlaceholder.data then
    .error (.simple ("failed to replace port placeholder in server.py"))
  else
    .ok (String.mk modifiedContent)

/-- isThaiText_iff characterizes the helper: true exactly when some rune of the
text lies in the Thai block. -/
lemma isThaiText_iff (s : String) :
    isThaiText s = true ↔ ∃ c ∈ s.data, 0x0E00 ≤ c.toNat ∧ c.toNat ≤ 0x0E7F := by
  simp [isThaiText, List.any_eq_true]

/-- list_get_map relates indexing into a mapped list with indexing into the
original list. -/
lemma list_get_map {α β : Type} (f : α → β) :
    ∀ (l : List α) (i : Nat) (h : i < (l.map f).length) (h2 : i < l.length),
      (l.map f).get ⟨i, h⟩ = f (l.get ⟨i, h2⟩) := by
  intro l
  induction l with
  | nil => intro i h h2; exact absurd h2 (Nat.not_lt_zero i)
  | cons a l ih =>
    intro i h h2
    cases i with
    | zero => rfl
    | succ j => exact ih j (by simpa using h) (by simpa using h2)

/-- TokenizeWithOptions_ok inverts a successful tokenize call: the readiness
check passed, the client returned a response, and the result is built from it
field by field. -/
lemma TokenizeWithOptions_ok {ready : Bool}
    {client : TokenizeRequest → Except GoError TokenizeResponse}
    {text : String} {opts : TokenizeOptions} {r : TokenizeResult}
    (h : (TokenizeWithOptions ready client text opts).1 = .ok r) :
    ∃ resp, client (mkTokenizeRequest text opts) = .ok resp ∧
      r = { Raw := resp.Tokens
            Engine := (mkTokenizeRequest text opts).Engine
            ProcessingTime := extractProcessingTime resp.Metadata
            Tokens := resp.Tokens.map fun token =>
              { Surface := token, IsLexical := isThaiText token } } := by
  cases ready with
  | false => simp [TokenizeWithOptions] at h
  | true =>
    rcases hc : client (mkTokenizeRequest text opts) with e | resp
    · simp [TokenizeWithOptions, hc] at h
    · refine ⟨resp, rfl, ?_⟩
      simp [TokenizeWithOptions, hc] at h
      exact h.symm

/-- RomanizeWithOptions_ok inverts a successful romanize call. -/
lemma RomanizeWithOptions_ok {ready : Bool}
    {client : RomanizeRequest → Except GoError RomanizeResponse}
    {text : String} {opts : RomanizeOptions} {r : RomanizeResult}
    (h : (RomanizeWithOptions ready client text opts).1 = .ok r) :
    ∃ resp, client (mkRomanizeRequest text opts) = .ok resp ∧
      r = { Text := resp.Romanized
            Tokens := resp.Tokens
            RomanizedParts := resp.RomanizedTokens
            Engine := (mkRomanizeRequest text opts).Engine
            ProcessingTime := extractProcessingTime resp.Metadata } := by
  cases ready with
  | false => simp [RomanizeWithOptions] at h
  | true =>
    rcases hc : client (mkRomanizeRequest text opts) with e | resp
    · simp [RomanizeWithOptions, hc] at h
    · refine ⟨resp, rfl, ?_⟩
      simp [RomanizeWithOptions, hc] at h
      exact h.symm

/-- AnalyzeWithOptions_ok inverts a successful combined-analyze call. -/
lemma AnalyzeWithOptions_ok {ready : Bool}
    {client : AnalyzeRequest → Except GoError AnalyzeResponse}
    {text : String} {opts : AnalyzeOptions} {r : AnalyzeResult}
    (h : (AnalyzeWithOptions ready client text opts).1 = .ok r) :
    ∃ resp, client (mkAnalyzeRequest text opts) = .ok resp ∧
      r = { RawTokens := resp.Data.Tokens
            Romanized := resp.Data.Romanized
            RomanizedParts := resp.Data.RomanizedTokens
            Phonetic := resp.Data.Phonetic
            Features := (mkAnalyzeRequest text opts).Features
            ProcessingTime := extractProcessingTime resp.Metadata
            Tokens := mkAnalyzeTokens resp.Data.Tokens resp.Data.RomanizedTokens } := by
  cases ready with
  | false => simp [AnalyzeWithOptions] at h
  | true =>
    rcases hc : client (mkAnalyzeRequest text opts) with e | resp
    · simp [AnalyzeWithOptions, hc] at h
    · refine ⟨resp, rfl, ?_⟩
      simp [AnalyzeWithOptions, hc] at h
      exact h.symm

/-- mkAnalyzeTokens_length shows the built token list has one entry per raw
token. -/
lemma mkAnalyzeTokens_length :
    ∀ (ts roms : List String), (mkAnalyzeTokens ts roms).length = ts.length := by
  intro ts
  induction ts with
  | nil => intro roms; cases roms <;> rfl
  | cons t ts ih =>
    intro roms
    cases roms with
    | nil => simp [mkAnalyzeTokens, ih]
    | cons rom roms => simp [mkAnalyzeTokens, ih]

/-- mkAnalyzeTokens_romanization_lt shows an index valid for both lists takes
its romanization from the romanized parts. -/
lemma mkAnalyzeTokens_romanization_lt :
    ∀ (ts roms : List String) (i : Nat) (h : i < (mkAnalyzeTokens ts roms).length)
      (h2 : i < roms.length),
      ((mkAnalyzeTokens ts roms).get ⟨i, h⟩).Romanization = roms.get ⟨i, h2⟩ := by
  intro ts
  induction ts with
  | nil =>
    intro roms i h h2
    cases roms <;> exact absurd h (by simp [mkAnalyzeTokens])
  | cons t ts ih =>
    intro roms i h h2
    cases roms with
    | nil => exact absurd h2 (Nat.not_lt_zero i)
    | cons rom roms =>
      cases i with
      | zero => rfl
      | succ j =>
        exact ih roms j (by simpa [mkAnalyzeTokens] using h) (by simpa using h2)

/-- mkAnalyzeTokens_romanization_ge shows an index beyond the romanized parts
leaves the romanization empty. -/
lemma mkAnalyzeTokens_romanization_ge :
    ∀ (ts roms : List String) (i : Nat) (h : i < (mkAnalyzeTokens ts roms).length),
      roms.length ≤ i →
      ((mkAnalyzeTokens ts roms).get ⟨i, h⟩).Romanization = "" := by
  intro ts
  induction ts with
  | nil =>
    intro roms i h _
    cases roms <;> exact absurd h (by simp [mkAnalyzeTokens])
  | cons t ts ih =>
    intro roms i h hge
    cases roms with
    | nil =>
      cases i with
      | zero => rfl
      | succ j => exact ih [] j (by simpa [mkAnalyzeTokens] using h) (Nat.zero_le j)
    | cons rom roms =>
      cases i with
      | zero => exact absurd hge (by simp)
      | succ j =>
        exact ih roms j (by simpa [mkAnalyzeTokens] using h) (by simpa using hge)

/-- mkAnalyzeTokens_mem shows each built token is the enrichment of some raw
token. -/
lemma mkAnalyzeTokens_mem :
    ∀ (ts roms : List String) (tok : Token), tok ∈ mkAnalyzeTokens ts roms →
      ∃ t ∈ ts, tok.Surface = t ∧ tok.IsLexical = isThaiText t := by
  intro ts
  induction ts with
  | nil => intro roms tok h; cases roms <;> simp [mkAnalyzeTokens] at h
  | cons t ts ih =>
    intro roms tok h
    cases roms with
    | nil =>
      rcases (by simpa [mkAnalyzeTokens] using h :
          tok = { Surface := t, IsLexical := isThaiText t } ∨ tok ∈ mkAnalyzeTokens ts []) with
        h1 | h1
      · exact ⟨t, List.mem_cons_self t ts, by simp [h1]⟩
      · rcases ih [] tok h1 with ⟨u, hu, hs⟩
        exact ⟨u, List.mem_cons_of_mem t hu, hs⟩
    | cons rom roms =>
      rcases (by simpa [mkAnalyzeTokens] using h :
          tok = { Surface := t, IsLexical := isThaiText t, Romanization := rom } ∨
            tok ∈ mkAnalyzeTokens ts roms) with h1 | h1
      · exact ⟨t, List.mem_cons_self t ts, by simp [h1]⟩
      · rcases ih roms tok h1 with ⟨u, hu, hs⟩
        exact ⟨u, List.mem_cons_of_mem t hu, hs⟩

/-- waitGo_success shows the loop returns success exactly at the first ready
poll: with k the first ready index relative to base and no cancellation up to
it, the loop performs k failed polls and succeeds on the next one. -/
lemma waitGo_success (health cancelled : Nat → Bool) :
    ∀ (fuel k base : Nat), k < fuel →
      (∀ j, j ≤ k → cancelled (base + j) = false) →
      health (base + k) = true →
      (∀ j, j < k → health (base + j) = false) →
      waitGo health cancelled fuel base = (.success, base + k + 1) := by
  intro fuel
  induction fuel with
  | zero => intro k base hk; exact absurd hk (Nat.not_lt_zero k)
  | succ fuel ih =>
    intro k base hk hcancel hready hbefore
    cases k with
    | zero =>
      have hc0 : cancelled base = false := by simpa using hcancel 0 (Nat.le_refl 0)
      have hh0 : health base = true := by simpa using hready
      simp [waitGo, hc0, hh0]
    | succ k =>
      have hc0 : cancelled base = false := by
        simpa using hcancel 0 (Nat.zero_le (k + 1))
      have hh0 : health base = false := by
        simpa using hbefore 0 (Nat.succ_pos k)
      have hrec := ih k (base + 1) (Nat.lt_of_succ_lt_succ hk)
        (fun j hj => by
          have := hcancel (j + 1) (Nat.succ_le_succ hj)
          simpa [Nat.add_assoc, Nat.add_comm 1 j] using this)
        (by
          have : base + 1 + k = base + (k + 1) := by omega
          rw [this]; exact hready)
        (fun j hj => by
          have := hbefore (j + 1) (Nat.succ_lt_succ hj)
          simpa [Nat.add_assoc, Nat.add_comm 1 j] using this)
      have harith : base + 1 + k + 1 = base + (k + 1) + 1 := by omega
      rw [harith] at hrec
      simp [waitGo, hc0, hh0, hrec]

/-- waitGo_timeout shows the loop returns the timeout outcome after exhausting
the deadline when no poll reports ready and no cancellation fires. -/
lemma waitGo_timeout (health cancelled : Nat → Bool) :
    ∀ (fuel base : Nat),
      (∀ j, j < fuel → cancelled (base + j) = false) →
      (∀ j, j < fuel → health (base + j) = false) →
      waitGo health cancelled fuel base = (.timedOut, base + fuel) := by
  intro fuel
  induction fuel with
  | zero => intro base _ _; simp [waitGo]
  | succ fuel ih =>
    intro base hcancel hhealth
    have hc0 : cancelled base = false := by simpa using hcancel 0 (Nat.succ_pos fuel)
    have hh0 : health base = false := by simpa using hhealth 0 (Nat.succ_pos fuel)
    have hrec := ih (base + 1)
      (fun j hj => by
        have := hcancel (j + 1) (Nat.succ_lt_succ hj)
        simpa [Nat.add_assoc, Nat.add_comm 1 j] using this)
      (fun j hj => by
        have := hhealth (j + 1) (Nat.succ_lt_succ hj)
        simpa [Nat.add_assoc, Nat.add_comm 1 j] using this)
    have harith : base + 1 + fuel = base + (fuel + 1) := by omega
    rw [harith] at hrec
    simp [waitGo, hc0, hh0, hrec]

/-- waitGo_cancel shows that cancellation observed at the m-th poll, before
any ready poll, exits with the distinct cancellation outcome. -/
lemma waitGo_cancel (health cancelled : Nat → Bool) :
    ∀ (fuel m base : Nat), m < fuel →
      cancelled (base + m) = true →
      (∀ j, j < m → cancelled (base + j) = false) →
      (∀ j, j < m → health (base + j) = false) →
      waitGo health cancelled fuel base = (.ctxCanceled, base + m) := by
  intro fuel
  induction fuel with
  | zero => intro m base hm; exact absurd hm (Nat.not_lt_zero m)
  | succ fuel ih =>
    intro m base hm hcm hcbefore hhbefore
    cases m with
    | zero =>
      have hc0 : cancelled base = true := by simpa using hcm
      simp [waitGo, hc0]
    | succ m =>
      have hc0 : cancelled base = false := by simpa using hcbefore 0 (Nat.succ_pos m)
      have hh0 : health base = false := by simpa using hhbefore 0 (Nat.succ_pos m)
      have hrec := ih m (base + 1) (Nat.lt_of_succ_lt_succ hm)
        (by
          have : base + 1 + m = base + (m + 1) := by omega
          rw [this]; exact hcm)
        (fun j hj => by
          have := hcbefore (j + 1) (Nat.succ_lt_succ hj)
          simpa [Nat.add_assoc, Nat.add_comm 1 j] using this)
        (fun j hj => by
          have := hhbefore (j + 1) (Nat.succ_lt_succ hj)
          simpa [Nat.add_assoc, Nat.add_comm 1 j] using this)
      have harith : base + 1 + m = base + (m + 1) := by omega
      rw [harith] at hrec
      simp [waitGo, hc0, hh0, hrec]

/-- hasPrefixL_nil_pat shows every list has the empty prefix. -/
lemma hasPrefixL_nil_pat : ∀ (s : List Char), hasPrefixL s [] = true := by
  intro s; cases s <;> rfl

/-- containsSub_nil_pat shows every list contains the empty pattern. -/
lemma containsSub_nil_pat : ∀ (s : List Char), containsSub s [] = true := by
  intro s; cases s <;> simp [containsSub, hasPrefixL_nil_pat]

/-- replaceAllGo_of_not_contains shows that when the pattern occurs nowhere in
the subject, the replacement is the identity, for any fuel. -/
lemma replaceAllGo_of_not_contains (pat rep : List Char) :
    ∀ (fuel : Nat) (s : List Char), containsSub s pat = false →
      replaceAllGo pat rep fuel s = s := by
  intro fuel
  induction fuel with
  | zero => intro s _; cases s <;> rfl
  | succ fuel ih =>
    intro s hs
    cases s with
    | nil => rfl
    | cons c rest =>
      have hpat : pat.isEmpty = false := by
        cases pat with
        | nil => rw [containsSub_nil_pat] at hs; exact absurd hs (by simp)
        | cons p ps => rfl
      have hsplit : hasPrefixL (c :: rest) pat = false ∧ containsSub rest pat = false := by
        have := hs
        simp [containsSub] at this
        exact this
      simp [replaceAllGo, hpat, hsplit.1, ih rest hsplit.2]

/-- replaceAll_of_not_contains specializes the identity to the wrapper. -/
lemma replaceAll_of_not_contains (s pat rep : List Char)
    (h : containsSub s pat = false) : replaceAll s pat rep = s :=
  replaceAllGo_of_not_contains pat rep s.length s h

/-- TransliterateWithOptions_ok inverts a successful transliterate call. -/
lemma TransliterateWithOptions_ok {ready : Bool}
    {client : TransliterateRequest → Except GoError TransliterateResponse}
    {text : String} {opts : TransliterateOptions} {r : TransliterateResult}
    (h : (TransliterateWithOptions ready client text opts).1 = .ok r) :
    ∃ resp, client (mkTransliterateRequest text opts) = .ok resp ∧
      r = { Phonetic := resp.Phonetic
            Engine := (mkTransliterateRequest text opts).Engine
            ProcessingTime := extractProcessingTime resp.Metadata } := by
  cases ready with
  | false => simp [TransliterateWithOptions] at h
  | true =>
    rcases hc : client (mkTransliterateRequest text opts) with e | resp
    · simp [TransliterateWithOptions, hc] at h
    · refine ⟨resp, rfl, ?_⟩
      simp [TransliterateWithOptions, hc] at h
      exact h.symm

/-- SyllableTokenizeWithOptions_ok inverts a successful syllable-tokenize
call. -/
lemma SyllableTokenizeWithOptions_ok {ready : Bool}
    {client : SyllableTokenizeRequest → Except GoError SyllableTokenizeResponse}
    {text : String} {opts : SyllableTokenizeOptions} {r : SyllableTokenizeResult}
    (h : (SyllableTokenizeWithOptions ready client text opts).1 = .ok r) :
    ∃ resp, client (mkSyllableTokenizeRequest text opts) = .ok resp ∧
      r = { Syllables := resp.Syllables
            Engine := (mkSyllableTokenizeRequest text opts).Engine
            ProcessingTime := extractProcessingTime resp.Metadata } := by
  cases ready with
  | false => simp [SyllableTokenizeWithOptions] at h
  | true =>
    rcases hc : client (mkSyllableTokenizeRequest text opts) with e | resp
    · simp [SyllableTokenizeWithOptions, hc] at h
    · refine ⟨resp, rfl, ?_⟩
      simp [SyllableTokenizeWithOptions, hc] at h
      exact h.symm

/-- C1: every successful tokenize call classifies each output token as lexical
iff its surface text contains at least one codepoint in U+0E00 to U+0E7F, and
in particular the Thai greeting is lexical while a digit string and the empty
string are not. -/
theorem c1_tokenize_lexical_iff_thai :
    (∀ (ready : Bool) (client : TokenizeRequest → Except GoError TokenizeResponse)
        (text : String) (opts : TokenizeOptions) (r : TokenizeResult),
        (TokenizeWithOptions ready client text opts).1 = .ok r →
        ∀ tok ∈ r.Tokens,
          (tok.IsLexical = true ↔
            ∃ c ∈ tok.Surface.data, 0x0E00 ≤ c.toNat ∧ c.toNat ≤ 0x0E7F)) ∧
    isThaiText ("สวัสดี") = true ∧ isThaiText ("123") = false ∧ isThaiText ("") = false := by
  refine ⟨?_, by decide, by decide, by decide⟩
  intro ready client text opts r h tok htok
  rcases TokenizeWithOptions_ok h with ⟨resp, hc, hr⟩
  subst hr
  rcases List.mem_map.mp htok with ⟨t, ht, rfl⟩
  simpa using isThaiText_iff t

/-- c1client is a concrete client oracle returning three tokens. -/
def c1client : TokenizeRequest → Except GoError TokenizeResponse :=
  fun _ => .ok { Tokens := ["สวัสดี", "123", ""] }

/-- c1res is the concrete result of the tokenize call against c1client. -/
def c1res : TokenizeResult :=
  { Raw := ["สวัสดี", "123", ""]
    Engine := EngineNewMM
    Tokens := [{ Surface := "สวัสดี", IsLexical := true },
               { Surface := "123" }, { Surface := "" }] }

/-- c1_witness instantiates C1 at a concrete call whose response carries the
three example tokens. -/
theorem c1_witness :
    (TokenizeWithOptions true c1client ("สวัสดี 123") ({} : TokenizeOptions)).1 = .ok c1res ∧
    (({ Surface := "สวัสดี", IsLexical := true } : Token).IsLexical = true ↔
      ∃ c ∈ ({ Surface := "สวัสดี", IsLexical := true } : Token).Surface.data,
        0x0E00 ≤ c.toNat ∧ c.toNat ≤ 0x0E7F) :=
  ⟨rfl,
   c1_tokenize_lexical_iff_thai.1 true c1client ("สวัสดี 123") {} c1res rfl
     { Surface := "สวัสดี", IsLexical := true } (by decide)⟩

/-- C2: every successful combined-analyze call yields as many structured
tokens as raw tokens, each token at an index shared with the romanized parts
takes that romanization, and each token beyond the romanized parts has the
empty romanization. -/
theorem c2_analyze_zip :
    ∀ (ready : Bool) (client : AnalyzeRequest → Except GoError AnalyzeResponse)
      (text : String) (opts : AnalyzeOptions) (r : AnalyzeResult),
      (AnalyzeWithOptions ready client text opts).1 = .ok r →
      r.Tokens.length = r.RawTokens.length ∧
      (∀ (i : Nat) (h1 : i < r.Tokens.length) (h2 : i < r.RomanizedParts.length),
        (r.Tokens.get ⟨i, h1⟩).Romanization = r.RomanizedParts.get ⟨i, h2⟩) ∧
      (∀ (i : Nat) (h1 : i < r.Tokens.length), r.RomanizedParts.length ≤ i →
        (r.Tokens.get ⟨i, h1⟩).Romanization = "") := by
  intro ready client text opts r h
  rcases AnalyzeWithOptions_ok h with ⟨resp, hc, hr⟩
  subst hr
  exact ⟨mkAnalyzeTokens_length _ _,
    fun i h1 h2 => mkAnalyzeTokens_romanization_lt _ _ i h1 h2,
    fun i h1 hge => mkAnalyzeTokens_romanization_ge _ _ i h1 hge⟩

/-- c2client is a concrete client oracle returning three raw tokens and only
two romanized parts. -/
def c2client : AnalyzeRequest → Except GoError AnalyzeResponse :=
  fun _ => .ok { Data := { Tokens := ["สวัสดี", "ครับ", "!"]
                           Romanized := "sawatdi khrap"
                           RomanizedTokens := ["sawatdi", "khrap"] } }

/-- c2res is the concrete result of the analyze call against c2client. -/
def c2res : AnalyzeResult :=
  { Tokens := [{ Surface := "สวัสดี", Romanization := "sawatdi", IsLexical := true },
               { Surface := "ครับ", Romanization := "khrap", IsLexical := true },
               { Surface := "!" }]
    RawTokens := ["สวัสดี", "ครับ", "!"]
    Romanized := "sawatdi khrap"
    RomanizedParts := ["sawatdi", "khrap"]
    Features := ["tokenize", "romanize"] }

/-- c2_witness instantiates C2 at a call with three raw tokens and two
romanized parts: the call succeeds, index one is paired, index two gets the
empty romanization. -/
theorem c2_witness :
    (AnalyzeWithOptions true c2client ("สวัสดีครับ!") ({} : AnalyzeOptions)).1 = .ok c2res ∧
    (c2res.Tokens.get ⟨1, by decide⟩).Romanization = c2res.RomanizedParts.get ⟨1, by decide⟩ ∧
    (c2res.Tokens.get ⟨2, by decide⟩).Romanization = "" :=
  ⟨rfl,
   (c2_analyze_zip true c2client ("สวัสดีครับ!") {} c2res rfl).2.1 1 (by decide) (by decide),
   (c2_analyze_zip true c2client ("สวัสดีครับ!") {} c2res rfl).2.2 2 (by decide) (by decide)⟩

/-- C3 counterexample: for a script content in which the placeholder does not
occur, copyServiceFiles returns ok with the content unchanged, not the
placeholder-replacement error the claim requires. -/
theorem c3_counterexample :
    containsSub (("print(12345)").data) (portPlaceholder.data) = false ∧
    copyServiceFiles ("print(12345)") ("8080") = .ok ("print(12345)") :=
  ⟨by decide, by rfl⟩

/-- C3 amended: copyServiceFiles fails only when the placeholder is still
present after replacement; when the placeholder does not occur in the script
content at all, the replacement is a no-op and startup proceeds without a
placeholder-replacement error. -/
theorem c3_amended_no_placeholder_ok :
    ∀ (content portStr : String),
      containsSub content.data portPlaceholder.data = false →
      copyServiceFiles content portStr = .ok content := by
  intro content portStr h
  have hid := replaceAll_of_not_contains content.data portPlaceholder.data portStr.data h
  simp [copyServiceFiles, hid, h]

/-- c3_amended_witness instantiates the amended C3 at a concrete script
content without the placeholder. -/
theorem c3_amended_witness :
    containsSub (("print(1)").data) (portPlaceholder.data) = false ∧
    copyServiceFiles ("print(1)") ("9000") = .ok ("print(1)") :=
  ⟨by decide, c3_amended_no_placeholder_ok ("print(1)") ("9000") (by decide)⟩

/-- C4: every operation call made while the readiness flag is false returns
the not-ready error and hands no request to the transport client. -/
theorem c4_not_ready_no_request :
    (∀ (client : TokenizeRequest → Except GoError TokenizeResponse)
        (text : String) (opts : TokenizeOptions),
        TokenizeWithOptions false client text opts = (.error errServiceNotReady, [])) ∧
    (∀ (client : RomanizeRequest → Except GoError RomanizeResponse)
        (text : String) (opts : RomanizeOptions),
        RomanizeWithOptions false client text opts = (.error errServiceNotReady, [])) ∧
    (∀ (client : TransliterateRequest → Except GoError TransliterateResponse)
        (text : String) (opts : TransliterateOptions),
        TransliterateWithOptions false client text opts = (.error errServiceNotReady, [])) ∧
    (∀ (client : SyllableTokenizeRequest → Except GoError SyllableTokenizeResponse)
        (text : String) (opts : SyllableTokenizeOptions),
        SyllableTokenizeWithOptions false client text opts = (.error errServiceNotReady, [])) ∧
    (∀ (client : AnalyzeRequest → Except GoError AnalyzeResponse)
        (text : String) (opts : AnalyzeOptions),
        AnalyzeWithOptions false client text opts = (.error errServiceNotReady, [])) :=
  ⟨fun _ _ _ => rfl, fun _ _ _ => rfl, fun _ _ _ => rfl, fun _ _ _ => rfl, fun _ _ _ => rfl⟩

/-- C5: a freshly constructed manager is not ready, and after Stop or Close
the readiness flag is false whatever the prior state was and whatever the
delegated teardown returned, the teardown outcome being passed through. -/
theorem c5_readiness_flag :
    IsReady newManager = false ∧
    (∀ (pm : PyThaiNLPManagerState) (d : Except GoError Unit),
      IsReady (Stop pm d).1 = false ∧ (Stop pm d).2 = d) ∧
    (∀ (pm : PyThaiNLPManagerState) (d : Except GoError Unit),
      IsReady (Close pm d).1 = false ∧ (Close pm d).2 = d) :=
  ⟨rfl, fun _ _ => ⟨rfl, rfl⟩, fun _ _ => ⟨rfl, rfl⟩⟩

/-- C6: the poll loop succeeds exactly at the first ready poll, having made
that many polls; it times out after exhausting the deadline when no poll is
ready; cancellation observed first exits with the cancellation outcome, an
outcome distinct from the timeout. -/
theorem c6_wait_for_service :
    (∀ (health : Nat → Bool) (k : Nat), k < maxPolls → health k = true →
        (∀ j, j < k → health j = false) →
        waitForService health (fun _ => false) = (.success, k + 1)) ∧
    (∀ (health : Nat → Bool), (∀ j, j < maxPolls → health j = false) →
        waitForService health (fun _ => false) = (.timedOut, maxPolls)) ∧
    (∀ (health cancelled : Nat → Bool) (m : Nat), m < maxPolls → cancelled m = true →
        (∀ j, j < m → cancelled j = false) → (∀ j, j < m → health j = false) →
        waitForService health cancelled = (.ctxCanceled, m)) ∧
    WaitOutcome.timedOut ≠ WaitOutcome.ctxCanceled := by
  refine ⟨?_, ?_, ?_, by decide⟩
  · intro health k hk hr hb
    have := waitGo_success health (fun _ => false) maxPolls k 0 hk (fun j _ => rfl)
      (by simpa using hr) (fun j hj => by simpa using hb j hj)
    simpa [waitForService] using this
  · intro health hall
    have := waitGo_timeout health (fun _ => false) maxPolls 0 (fun j _ => rfl)
      (fun j hj => by simpa using hall j hj)
    simpa [waitForService] using this
  · intro health cancelled m hm hcm hcb hhb
    have := waitGo_cancel health cancelled maxPolls m 0 hm (by simpa using hcm)
      (fun j hj => by simpa using hcb j hj) (fun j hj => by simpa using hhb j hj)
    simpa [waitForService] using this

/-- c6health is a concrete health oracle whose third poll is the first ready
one. -/
def c6health : Nat → Bool := fun i => decide (i = 2)

/-- c6_witness instantiates C6 at the concrete oracle: two failed polls, then
success on the third. -/
theorem c6_witness :
    waitForService c6health (fun _ => false) = (.success, 3) :=
  c6_wait_for_service.1 c6health 2 (by decide) (by decide) (by decide)

/-- C7: for each of the four operations, an empty engine in the options is
replaced by the documented default in the request actually sent and in the
engine echoed by a successful result, while a non-empty engine passes through
unchanged. -/
theorem c7_default_engines :
    (∀ (text : String) (opts : TokenizeOptions)
        (client : TokenizeRequest → Except GoError TokenizeResponse),
        ((TokenizeWithOptions true client text opts).2.map TokenizeRequest.Engine
          = [if opts.Engine = "" then EngineNewMM else opts.Engine]) ∧
        (∀ r, (TokenizeWithOptions true client text opts).1 = .ok r →
          r.Engine = if opts.Engine = "" then EngineNewMM else opts.Engine)) ∧
    (∀ (text : String) (opts : RomanizeOptions)
        (client : RomanizeRequest → Except GoError RomanizeResponse),
        ((RomanizeWithOptions true client text opts).2.map RomanizeRequest.Engine
          = [if opts.Engine = "" then EngineRoyin else opts.Engine]) ∧
        (∀ r, (RomanizeWithOptions true client text opts).1 = .ok r →
          r.Engine = if opts.Engine = "" then EngineRoyin else opts.Engine)) ∧
    (∀ (text : String) (opts : TransliterateOptions)
        (client : TransliterateRequest → Except GoError TransliterateResponse),
        ((TransliterateWithOptions true client text opts).2.map TransliterateRequest.Engine
          = [if opts.Engine = "" then EngineThaig2p else opts.Engine]) ∧
        (∀ r, (TransliterateWithOptions true client text opts).1 = .ok r →
          r.Engine = if opts.Engine = "" then EngineThaig2p else opts.Engine)) ∧
    (∀ (text : String) (opts : SyllableTokenizeOptions)
        (client : SyllableTokenizeRequest → Except GoError SyllableTokenizeResponse),
        ((SyllableTokenizeWithOptions true client text opts).2.map SyllableTokenizeRequest.Engine
          = [if opts.Engine = "" then EngineSyllableHanSolo else opts.Engine]) ∧
        (∀ r, (SyllableTokenizeWithOptions true client text opts).1 = .ok r →
          r.Engine = if opts.Engine = "" then EngineSyllableHanSolo else opts.Engine)) := by
  refine ⟨?_, ?_, ?_, ?_⟩
  · intro text opts client
    constructor
    · rcases hc : client (mkTokenizeRequest text opts) with e | resp <;>
        simp [TokenizeWithOptions, hc] <;> simp [mkTokenizeRequest]
    · intro r h
      rcases TokenizeWithOptions_ok h with ⟨resp, hc, hr⟩
      subst hr
      simp [mkTokenizeRequest]
  · intro text opts client
    constructor
    · rcases hc : client (mkRomanizeRequest text opts) with e | resp <;>
        simp [RomanizeWithOptions, hc] <;> simp [mkRomanizeRequest]
    · intro r h
      rcases RomanizeWithOptions_ok h with ⟨resp, hc, hr⟩
      subst hr
      simp [mkRomanizeRequest]
  · intro text opts client
    constructor
    · rcases hc : client (mkTransliterateRequest text opts) with e | resp <;>
        simp [TransliterateWithOptions, hc] <;> simp [mkTransliterateRequest]
    · intro r h
      rcases TransliterateWithOptions_ok h with ⟨resp, hc, hr⟩
      subst hr
      simp [mkTransliterateRequest]
  · intro text opts client
    constructor
    · rcases hc : client (mkSyllableTokenizeRequest text opts) with e | resp <;>
        simp [SyllableTokenizeWithOptions, hc] <;> simp [mkSyllableTokenizeRequest]
    · intro r h
      rcases SyllableTokenizeWithOptions_ok h with ⟨resp, hc, hr⟩
      subst hr
      simp [mkSyllableTokenizeRequest]

/-- c7client is a concrete client oracle returning the empty response. -/
def c7client : TokenizeRequest → Except GoError TokenizeResponse :=
  fun _ => .ok {}

/-- c7res is the concrete result of the tokenize call against c7client. -/
def c7res : TokenizeResult :=
  { Engine := EngineNewMM }

/-- c7_witness instantiates C7 at a call with empty engine options: the sent
request and the echoed result both carry the default tokenize engine. -/
theorem c7_witness :
    ((TokenizeWithOptions true c7client ("ก") ({} : TokenizeOptions)).2.map
        TokenizeRequest.Engine = [EngineNewMM]) ∧
    c7res.Engine = EngineNewMM :=
  ⟨by simpa using (c7_default_engines.1 ("ก") {} c7client).1,
   by simpa using (c7_default_engines.1 ("ก") {} c7client).2 c7res rfl⟩

/-- C8: an envelope whose error field is present makes the transport client
return exactly that error as a typed service error with code and message
intact, with no data payload and not as a generic simple or wrapped failure. -/
theorem c8_service_error_intact :
    ∀ (parse : String → Except String ServiceResponse) (body : String)
      (resp : ServiceResponse) (e : ServiceError),
      parse body = .ok resp → resp.Error = some e →
      doRequest (.ok body) parse = .error (.service e) ∧
      (∀ sr, doRequest (.ok body) parse ≠ .ok sr) ∧
      (∀ msg, doRequest (.ok body) parse ≠ .error (.simple msg)) ∧
      (∀ msg inner, doRequest (.ok body) parse ≠ .error (.wrapped msg inner)) := by
  intro parse body resp e hp he
  have hmain : doRequest (.ok body) parse = .error (.service e) := by
    simp [doRequest, hp, he]
  refine ⟨hmain, ?_, ?_, ?_⟩
  · intro sr h; rw [hmain] at h; simp at h
  · intro msg h; rw [hmain] at h; simp at h
  · intro msg inner h; rw [hmain] at h; simp at h

/-- c8env is a concrete envelope carrying the example error. -/
def c8env : ServiceResponse :=
  { Error := some { Code := "E1", Message := "bad input" } }

/-- c8parse is a concrete decoding oracle producing c8env. -/
def c8parse : String → Except String ServiceResponse :=
  fun _ => .ok c8env

/-- c8_witness instantiates C8 at the example envelope with code E1 and
message bad input. -/
theorem c8_witness :
    doRequest (.ok ("resp-body")) c8parse
      = .error (.service { Code := "E1", Message := "bad input" }) :=
  (c8_service_error_intact c8parse ("resp-body") c8env
    { Code := "E1", Message := "bad input" } rfl rfl).1

/-- C9: the processing-time extraction copies a numeric metadata entry into
the result and defaults to zero when the entry is absent or not numeric, and
a successful tokenize or romanize call always succeeds carrying exactly that
extracted value. -/
theorem c9_processing_time :
    (∀ (md : MetaMap) (v : Rat), lookupMeta md ("processing_time_ms") = some (.num v) →
        extractProcessingTime md = v) ∧
    (∀ (md : MetaMap), lookupMeta md ("processing_time_ms") = none →
        extractProcessingTime md = 0) ∧
    (∀ (md : MetaMap) (g : GoVal), lookupMeta md ("processing_time_ms") = some g →
        (∀ v, g ≠ .num v) → extractProcessingTime md = 0) ∧
    (∀ (client : TokenizeRequest → Except GoError TokenizeResponse) (text : String)
        (opts : TokenizeOptions) (resp : TokenizeResponse),
        client (mkTokenizeRequest text opts) = .ok resp →
        ∃ r, (TokenizeWithOptions true client text opts).1 = .ok r ∧
          r.ProcessingTime = extractProcessingTime resp.Metadata) ∧
    (∀ (client : RomanizeRequest → Except GoError RomanizeResponse) (text : String)
        (opts : RomanizeOptions) (resp : RomanizeResponse),
        client (mkRomanizeRequest text opts) = .ok resp →
        ∃ r, (RomanizeWithOptions true client text opts).1 = .ok r ∧
          r.ProcessingTime = extractProcessingTime resp.Metadata) ∧
    (∀ (client : TransliterateRequest → Except GoError TransliterateResponse) (text : String)
        (opts : TransliterateOptions) (resp : TransliterateResponse),
        client (mkTransliterateRequest text opts) = .ok resp →
        ∃ r, (TransliterateWithOptions true client text opts).1 = .ok r ∧
          r.ProcessingTime = extractProcessingTime resp.Metadata) ∧
    (∀ (client : SyllableTokenizeRequest → Except GoError SyllableTokenizeResponse)
        (text : String) (opts : SyllableTokenizeOptions) (resp : SyllableTokenizeResponse),
        client (mkSyllableTokenizeRequest text opts) = .ok resp →
        ∃ r, (SyllableTokenizeWithOptions true client text opts).1 = .ok r ∧
          r.ProcessingTime = extractProcessingTime resp.Metadata) ∧
    (∀ (client : AnalyzeRequest → Except GoError AnalyzeResponse) (text : String)
        (opts : AnalyzeOptions) (resp : AnalyzeResponse),
        client (mkAnalyzeRequest text opts) = .ok resp →
        ∃ r, (AnalyzeWithOptions true client text opts).1 = .ok r ∧
          r.ProcessingTime = extractProcessingTime resp.Metadata) := by
  refine ⟨?_, ?_, ?_, ?_, ?_, ?_, ?_, ?_⟩
  · intro md v h; simp [extractProcessingTime, h]
  · intro md h; simp [extractProcessingTime, h]
  · intro md g h hg
    cases g with
    | num v => exact absurd rfl (hg v)
    | str s => simp [extractProcessingTime, h]
    | boolean b => simp [extractProcessingTime, h]
    | null => simp [extractProcessingTime, h]
  · intro client text opts resp hc
    refine ⟨{ Raw := resp.Tokens
              Engine := (mkTokenizeRequest text opts).Engine
              ProcessingTime := extractProcessingTime resp.Metadata
              Tokens := resp.Tokens.map fun token =>
                { Surface := token, IsLexical := isThaiText token } }, ?_, rfl⟩
    simp [TokenizeWithOptions, hc]
  · intro client text opts resp hc
    refine ⟨{ Text := resp.Romanized
              Tokens := resp.Tokens
              RomanizedParts := resp.RomanizedTokens
              Engine := (mkRomanizeRequest text opts).Engine
              ProcessingTime := extractProcessingTime resp.Metadata }, ?_, rfl⟩
    simp [RomanizeWithOptions, hc]
  · intro client text opts resp hc
    refine ⟨{ Phonetic := resp.Phonetic
              Engine := (mkTransliterateRequest text opts).Engine
              ProcessingTime := extractProcessingTime resp.Metadata }, ?_, rfl⟩
    simp [TransliterateWithOptions, hc]
  · intro client text opts resp hc
    refine ⟨{ Syllables := resp.Syllables
              Engine := (mkSyllableTokenizeRequest text opts).Engine
              ProcessingTime := extractProcessingTime resp.Metadata }, ?_, rfl⟩
    simp [SyllableTokenizeWithOptions, hc]
  · intro client text opts resp hc
    refine ⟨{ RawTokens := resp.Data.Tokens
              Romanized := resp.Data.Romanized
              RomanizedParts := resp.Data.RomanizedTokens
              Phonetic := resp.Data.Phonetic
              Features := (mkAnalyzeRequest text opts).Features
              ProcessingTime := extractProcessingTime resp.Metadata
              Tokens := mkAnalyzeTokens resp.Data.Tokens resp.Data.RomanizedTokens },
      ?_, rfl⟩
    simp [AnalyzeWithOptions, hc]

/-- c9client is a concrete client oracle whose response metadata carries a
numeric processing time of five. -/
def c9client : TokenizeRequest → Except GoError TokenizeResponse :=
  fun _ => .ok { Metadata := [("processing_time_ms", .num 5)] }

/-- c9analyzeClient is a concrete analyze client oracle whose response
metadata is empty. -/
def c9analyzeClient : AnalyzeRequest → Except GoError AnalyzeResponse :=
  fun _ => .ok {}

/-- c9_witness instantiates C9: the numeric entry is copied and a concrete
successful tokenize call carries it, while a concrete analyze call with no
metadata entry still succeeds and carries the zero default. -/
theorem c9_witness :
    extractProcessingTime ([("processing_time_ms", GoVal.num 5)]) = 5 ∧
    (∃ r, (TokenizeWithOptions true c9client ("ข") ({} : TokenizeOptions)).1 = .ok r ∧
      r.ProcessingTime = extractProcessingTime ([("processing_time_ms", GoVal.num 5)])) ∧
    extractProcessingTime ([]) = 0 ∧
    (∃ r, (AnalyzeWithOptions true c9analyzeClient ("ข") ({} : AnalyzeOptions)).1 = .ok r ∧
      r.ProcessingTime = extractProcessingTime ([])) :=
  ⟨c9_processing_time.1 ([("processing_time_ms", GoVal.num 5)]) 5 rfl,
   c9_processing_time.2.2.2.1 c9client ("ข") {}
     { Metadata := [("processing_time_ms", GoVal.num 5)] } rfl,
   c9_processing_time.2.1 ([]) rfl,
   c9_processing_time.2.2.2.2.2.2.2 c9analyzeClient ("ข") {} {} rfl⟩

/-- C10: every successful tokenize call yields a structured token list of the
same length as the raw list, with the token at each index carrying exactly the
raw string at that index as its surface. -/
theorem c10_tokens_parallel_raw :
    ∀ (ready : Bool) (client : TokenizeRequest → Except GoError TokenizeResponse)
      (text : String) (opts : TokenizeOptions) (r : TokenizeResult),
      (TokenizeWithOptions ready client text opts).1 = .ok r →
      r.Tokens.length = r.Raw.length ∧
      ∀ (i : Nat) (h1 : i < r.Tokens.length) (h2 : i < r.Raw.length),
        (r.Tokens.get ⟨i, h1⟩).Surface = r.Raw.get ⟨i, h2⟩ := by
  intro ready client text opts r h
  rcases TokenizeWithOptions_ok h with ⟨resp, hc, hr⟩
  subst hr
  refine ⟨by simp, ?_⟩
  intro i h1 h2
  rw [list_get_map (fun token =>
    ({ Surface := token, IsLexical := isThaiText token } : Token)) resp.Tokens i h1 h2]

/-- c10client is a concrete client oracle returning two tokens. -/
def c10client : TokenizeRequest → Except GoError TokenizeResponse :=
  fun _ => .ok { Tokens := ["ไทย", "ab"] }

/-- c10res is the concrete result of the tokenize call against c10client. -/
def c10res : TokenizeResult :=
  { Raw := ["ไทย", "ab"]
    Engine := EngineNewMM
    Tokens := [{ Surface := "ไทย", IsLexical := true }, { Surface := "ab" }] }

/-- c10_witness instantiates C10 at a concrete call with two tokens. -/
theorem c10_witness :
    (TokenizeWithOptions true c10client ("ไทย ab") ({} : TokenizeOptions)).1 = .ok c10res ∧
    c10res.Tokens.length = c10res.Raw.length ∧
    (c10res.Tokens.get ⟨0, by decide⟩).Surface = c10res.Raw.get ⟨0, by decide⟩ :=
  ⟨rfl,
   (c10_tokens_parallel_raw true c10client ("ไทย ab") {} c10res rfl).1,
   (c10_tokens_parallel_raw true c10client ("ไทย ab") {} c10res rfl).2 0 (by decide) (by decide)⟩

end Pythainlp
